import Mathlib

/-!
Verification of the HackPush submission-sync pipeline.

The JavaScript sources (src/js/github-api.js, src/js/storage.js,
src/js/content.js, and the background service worker) are shallowly embedded
below.  Strings are Lean `String`s (lists of characters); the embeddings
restrict JavaScript's Unicode-aware case mapping to ASCII, which covers every
value the pipeline manipulates (slugs, language ids, path templates).
ISO-8601 timestamps are modelled by their epoch-millisecond value (`Int`);
`new Date(a) - new Date(b)` becomes integer subtraction, and rendering a
timestamp into a file header is abstracted as `toString`.
-/

/-- JavaScript `trim` whitespace for the ASCII fragment: space, tab, CR, LF. -/
def isJsWS (c : Char) : Bool :=
  c = ' ' || c = '\t' || c = '\r' || c = '\n'

/-- Drop trailing whitespace (the tail half of JavaScript `trim`). -/
def dropEndWS (l : List Char) : List Char :=
  (l.reverse.dropWhile isJsWS).reverse

/-- Character-list form of JavaScript `String.prototype.trim`. -/
def trimList (l : List Char) : List Char :=
  dropEndWS (l.dropWhile isJsWS)

/-- JavaScript `String.prototype.trim` (ASCII whitespace). -/
def jsTrim (s : String) : String :=
  ⟨trimList s.data⟩

/-- The ASCII upper/lower case pairs used by `toLowerCase` on this data. -/
def upperLower : List (Char × Char) :=
  [('A', 'a'), ('B', 'b'), ('C', 'c'), ('D', 'd'), ('E', 'e'), ('F', 'f'),
   ('G', 'g'), ('H', 'h'), ('I', 'i'), ('J', 'j'), ('K', 'k'), ('L', 'l'),
   ('M', 'm'), ('N', 'n'), ('O', 'o'), ('P', 'p'), ('Q', 'q'), ('R', 'r'),
   ('S', 's'), ('T', 't'), ('U', 'u'), ('V', 'v'), ('W', 'w'), ('X', 'x'),
   ('Y', 'y'), ('Z', 'z')]

/-- ASCII lower-casing of one character. -/
def lowerChar (c : Char) : Char :=
  (upperLower.lookup c).getD c

/-- JavaScript `String.prototype.toLowerCase`, restricted to ASCII. -/
def jsToLower (s : String) : String :=
  ⟨s.data.map lowerChar⟩

/-- Does `pat` occur as a contiguous substring of `s`?
(JavaScript `String.prototype.includes`.) -/
def containsSub : List Char → List Char → Bool
  | [], pat => pat.isEmpty
  | c :: rest, pat => pat.isPrefixOf (c :: rest) || containsSub rest pat

/-- String wrapper for `containsSub`. -/
def strIncludes (s pat : String) : Bool :=
  containsSub s.data pat.data

/-- Index of the first occurrence of `pat` in `s`
(JavaScript `String.prototype.indexOf`; `none` plays the role of `-1`). -/
def indexOfSub (pat : List Char) : List Char → Option Nat
  | [] => if pat.isEmpty then some 0 else none
  | c :: rest =>
    if pat.isPrefixOf (c :: rest) then some 0
    else (indexOfSub pat rest).map (· + 1)

/-- Characters the sanitizer keeps: the regex class `[a-z0-9]`. -/
def isLowerAlnum (c : Char) : Bool :=
  ('a' ≤ c && c ≤ 'z') || ('0' ≤ c && c ≤ '9')

/-- One pass of `replace(/[^a-z0-9]+/g, '-')`: each maximal run of characters
outside `[a-z0-9]` becomes a single hyphen.  `prevDash` records whether the
previous character already emitted the hyphen for the current run. -/
def collapseNonAlnum : Bool → List Char → List Char
  | _, [] => []
  | prevDash, c :: rest =>
    if isLowerAlnum c then c :: collapseNonAlnum false rest
    else if prevDash then collapseNonAlnum true rest
    else '-' :: collapseNonAlnum true rest

/-- Drop a single leading hyphen, if present. -/
def dropOneLeadDash : List Char → List Char
  | '-' :: rest => rest
  | l => l

/-- `replace(/^-|-$/g, '')`: remove one leading and one trailing hyphen. -/
def stripEdgeDashes (l : List Char) : List Char :=
  ((dropOneLeadDash l).reverse |> dropOneLeadDash).reverse

/-- `replace(/\/+/g, '/')`: collapse runs of `/` to a single `/`.
`prevSlash` records whether the previous kept character was a slash. -/
def collapseSlashes : Bool → List Char → List Char
  | _, [] => []
  | prevSlash, c :: rest =>
    if c = '/' then
      if prevSlash then collapseSlashes true rest
      else '/' :: collapseSlashes true rest
    else c :: collapseSlashes false rest

/-- `true` iff `pat` occurs nowhere in the list. -/
def noMatch (pat : List Char) : List Char → Bool
  | [] => true
  | c :: rest => !pat.isPrefixOf (c :: rest) && noMatch pat rest

/-- Fuelled worker for global literal replacement: at a match, emit `repl` and
skip the matched text; otherwise copy one character.  Each step consumes at
least one input character (for nonempty `pat`), so fuel `s.length` is exact. -/
def replaceSubAux (pat repl : List Char) : Nat → List Char → List Char
  | 0, s => s
  | _ + 1, [] => []
  | n + 1, c :: rest =>
    if pat.isPrefixOf (c :: rest) then
      repl ++ replaceSubAux pat repl n ((c :: rest).drop pat.length)
    else c :: replaceSubAux pat repl n rest

/-- Global literal replacement on character lists (JavaScript
`replace(/pat/g, repl)` for a literal pattern; `$`-escapes in the replacement
never arise for the values this program substitutes). -/
def replaceSub (pat repl s : List Char) : List Char :=
  if pat.isEmpty then s else replaceSubAux pat repl s.length s

/-- String wrapper for `replaceSub`. -/
def replaceAllStr (pat repl s : String) : String :=
  ⟨replaceSub pat.data repl.data s.data⟩

/-- JavaScript `split('/')` (on lists). -/
def splitSlashAux (acc : List Char) : List Char → List (List Char)
  | [] => [acc.reverse]
  | c :: rest =>
    if c = '/' then acc.reverse :: splitSlashAux [] rest
    else splitSlashAux (c :: acc) rest

/-- JavaScript `String.prototype.split('/')`. -/
def splitSlash (s : String) : List String :=
  (splitSlashAux [] s.data).map fun l => ⟨l⟩

/-- JavaScript truthiness for an optional string: `undefined` and the empty
string are falsy. -/
def jsFalsy : Option String → Bool
  | none => true
  | some s => s = ""

/-- JavaScript `a || b` for an optional string `a` and a default `b`. -/
def jsOr (o : Option String) (dflt : String) : String :=
  if jsFalsy o then dflt else o.getD dflt

/-! ## src/js/github-api.js -/

/-- Identity of a remote versioned file: `(owner, repo, branch, path)`. -/
structure RemoteKey where
  owner : String
  repo : String
  branch : String
  path : String
deriving DecidableEq

/-- A remote file: its current revision id (`sha`, modelled as a counter) and
its content. -/
structure RemoteFile where
  sha : Nat
  content : String
deriving DecidableEq

/-- The remote store: an association of keys to files. -/
abbrev RemoteStore := List (RemoteKey × RemoteFile)

/-- Look up a file in the store. -/
def findFile : RemoteStore → RemoteKey → Option RemoteFile
  | [], _ => none
  | (k, f) :: rest, key => if k = key then some f else findFile rest key

/-- Replace the file stored at `key` (used by a successful update). -/
def setFile : RemoteStore → RemoteKey → RemoteFile → RemoteStore
  | [], _, _ => []
  | (k, f) :: rest, key, f2 =>
    if k = key then (k, f2) :: rest else (k, f) :: setFile rest key f2

/-- Error classes the remote store distinguishes for a write. -/
inductive StoreError where
  /-- 409-class: revision mismatch, or no revision supplied for an existing
  object. -/
  | conflict
  /-- 422-class: a revision supplied for an object that does not exist. -/
  | invalidSha
deriving DecidableEq

/-- Modelled from the spec: the server side of
`PUT /repos/.../contents/{path}` (the GitHub Contents API), which is not part
of this repository's source — only its client is.  Per spec sections 4.4 and
6: omitting the revision asserts "create", supplying it asserts "update at
exactly this revision", and a mismatch (or a missing revision when one
exists) fails distinctly as a conflict rather than silently overwriting.
Base64 transport encoding of the content is abstracted away. -/
def putContents (store : RemoteStore) (key : RemoteKey) (content : String)
    (sha : Option Nat) : Except StoreError (RemoteStore × RemoteFile) :=
  match findFile store key, sha with
  | none, none =>
    let f : RemoteFile := ⟨0, content⟩
    Except.ok ((key, f) :: store, f)
  | none, some _ => Except.error StoreError.invalidSha
  | some _, none => Except.error StoreError.conflict
  | some f, some s =>
    if s = f.sha then
      let f2 : RemoteFile := ⟨f.sha + 1, content⟩
      Except.ok (setFile store key f2, f2)
    else Except.error StoreError.conflict

/-- `getFileSha` (github-api.js lines 32-57) over the store model: the
contents GET answers with the current sha, or 404 (`none`) when the path
does not exist. -/
def getFileSha (store : RemoteStore) (key : RemoteKey) : Option Nat :=
  (findFile store key).map fun f => f.sha

/-- Modelled from the spec: the canonical URL of the written file (the
`html_url` the remote returns; spec section 4.3's "remote reference"). -/
def htmlUrl (key : RemoteKey) : String :=
  "https://github.com/" ++ key.owner ++ "/" ++ key.repo ++ "/blob/"
    ++ key.branch ++ "/" ++ key.path

/-- The slice of the PUT response `handlePushToGitHub` consumes. -/
structure PushResult where
  html_url : String
  newSha : Nat
deriving DecidableEq

/-- `createOrUpdateFile` (github-api.js lines 62-112): read the current sha
(if any), then PUT with the `sha` field present iff one was found.  The
`message` goes into the remote commit and does not affect the store model. -/
def createOrUpdateFile (store : RemoteStore) (owner repo path content _message
    branch : String) : Except StoreError (RemoteStore × PushResult) :=
  let key : RemoteKey := ⟨owner, repo, branch, path⟩
  let sha := getFileSha store key
  match putContents store key content sha with
  | Except.error e => Except.error e
  | Except.ok (store2, f) => Except.ok (store2, ⟨htmlUrl key, f.sha⟩)

/-- One entry of the `commentStyles` table (`stop` embeds the JavaScript
property named `end`, a reserved word in Lean). -/
structure CommentStyle where
  start : String
  stop : String
  line : Option String
deriving DecidableEq

/-- The `commentStyles` lookup in `formatFileContent`, with the
`|| { start: '# ', end: '' }` default. -/
def commentStyle (language : String) : CommentStyle :=
  if language = "python3" then ⟨"\"\"\"", "\"\"\"", none⟩
  else if language = "java" then ⟨"/*", "*/", some " * "⟩
  else if language = "javascript" then ⟨"/*", "*/", some " * "⟩
  else if language = "cpp" then ⟨"/*", "*/", some " * "⟩
  else if language = "c" then ⟨"/*", "*/", some " * "⟩
  else if language = "csharp" then ⟨"/*", "*/", some " * "⟩
  else if language = "go" then ⟨"/*", "*/", some " * "⟩
  else if language = "ruby" then ⟨"=begin", "=end", some " "⟩
  else if language = "rust" then ⟨"/*", "*/", some " * "⟩
  else if language = "php" then ⟨"/*", "*/", some " * "⟩
  else if language = "typescript" then ⟨"/*", "*/", some " * "⟩
  else if language = "sql" then ⟨"-- ", "", none⟩
  else if language = "bash" then ⟨"# ", "", none⟩
  else ⟨"# ", "", none⟩

/-- The metadata `formatFileContent` receives. -/
structure Metadata where
  problemTitle : String
  language : String
  timestamp : Int
  url : String
deriving DecidableEq

/-- `formatFileContent` (github-api.js lines 154-204). -/
def formatFileContent (code : String) (m : Metadata) : String :=
  let style := commentStyle m.language
  let header :=
    match style.line with
    | some lp =>
      style.start ++ "\n" ++ lp ++ "Problem: " ++ m.problemTitle ++ "\n"
        ++ lp ++ "Language: " ++ m.language ++ "\n"
        ++ lp ++ "Submitted: " ++ toString m.timestamp ++ "\n"
        ++ lp ++ "HackerRank URL: " ++ m.url ++ "\n"
        ++ lp ++ "Auto-synced by HackPush\n"
        ++ style.stop ++ "\n\n"
    | none =>
      if m.language = "python3" && style.start = "\"\"\"" then
        "\"\"\"\nProblem: " ++ m.problemTitle ++ "\nLanguage: " ++ m.language
          ++ "\nSubmitted: " ++ toString m.timestamp ++ "\nHackerRank URL: "
          ++ m.url ++ "\nAuto-synced by HackPush\n\"\"\"\n\n"
      else
        let lastLine := style.start ++ "Auto-synced by HackPush"
          ++ (if style.stop ≠ "" then " " ++ style.stop else "")
        style.start ++ "Problem: " ++ m.problemTitle ++ "\n"
          ++ style.start ++ "Language: " ++ m.language ++ "\n"
          ++ style.start ++ "Submitted: " ++ toString m.timestamp ++ "\n"
          ++ style.start ++ "HackerRank URL: " ++ m.url ++ "\n"
          ++ lastLine ++ "\n\n"
  header ++ code

/-- The substitution data `generateFilePath` receives. -/
structure PathData where
  category : String
  filename : String
  slug : String
  language : String
deriving DecidableEq

/-- `filename.toLowerCase().replace(/[^a-z0-9]+/g, '-').replace(/^-|-$/g, '')`
from `generateFilePath`. -/
def sanitizePart (s : String) : String :=
  ⟨stripEdgeDashes (collapseNonAlnum false (s.data.map lowerChar))⟩

/-- `generateFilePath` (github-api.js lines 209-233): sanitize `filename` and
`slug`, substitute the four template tokens in source order, and collapse
repeated slashes. -/
def generateFilePath (template : String) (d : PathData) : String :=
  let sanitizedFilename := sanitizePart d.filename
  let sanitizedSlug := sanitizePart d.slug
  let path :=
    replaceAllStr "{language}" d.language
      (replaceAllStr "{slug}" sanitizedSlug
        (replaceAllStr "{filename}" sanitizedFilename
          (replaceAllStr "{category}" d.category template)))
  ⟨collapseSlashes false path.data⟩

/-! ## Background service worker (the unnamed source file) -/

namespace Background

/-- The `extensionMap` of the background worker's `DOMParser.getFileExtension`
(lines 253-276 of the service worker). -/
def extensionMap : List (String × String) :=
  [("python3", "py"), ("java", "java"), ("javascript", "js"), ("cpp", "cpp"),
   ("c", "c"), ("csharp", "cs"), ("go", "go"), ("ruby", "rb"),
   ("swift", "swift"), ("kotlin", "kt"), ("scala", "scala"), ("rust", "rs"),
   ("php", "php"), ("typescript", "ts"), ("r", "r"), ("sql", "sql"),
   ("bash", "sh")]

/-- `getFileExtension(language)`: table lookup with `'txt'` default. -/
def getFileExtension (language : String) : String :=
  (extensionMap.lookup language).getD "txt"

/-- The `languageMap` of the API-based content script's `normalizeLanguage`
(lines 359-374 of that script; note `python2` maps to `python`, which is
itself a key of the table). -/
def languageMap : List (String × String) :=
  [("python3", "python3"), ("python", "python3"), ("py", "python3"),
   ("python2", "python"),
   ("java", "java"), ("java8", "java"), ("java7", "java"), ("java15", "java"),
   ("javascript", "javascript"), ("js", "javascript"), ("node", "javascript"),
   ("cpp", "cpp"), ("cpp14", "cpp"), ("cpp11", "cpp"), ("c++", "cpp"),
   ("c", "c"),
   ("csharp", "csharp"), ("cs", "csharp"),
   ("go", "go"), ("golang", "go"),
   ("ruby", "ruby"), ("rb", "ruby"),
   ("swift", "swift"), ("kotlin", "kotlin"), ("scala", "scala"),
   ("rust", "rust"),
   ("php", "php"), ("typescript", "typescript"), ("ts", "typescript"),
   ("r", "r"), ("sql", "sql"), ("bash", "bash"), ("shell", "bash")]

/-- `normalizeLanguage(lang)` of the API-based content script:
`lang.toLowerCase().trim()`, then table lookup with passthrough default. -/
def normalizeLanguage (lang : String) : String :=
  let normalized := jsTrim (jsToLower lang)
  (languageMap.lookup normalized).getD normalized

end Background

/-- The `data` payload `handlePushToGitHub` receives from a content script. -/
structure PushData where
  code : String
  language : String
  problemTitle : String
  problemSlug : String
  category : String
  timestamp : Int
  url : String
deriving DecidableEq

/-- The file-path derivation inlined in `handlePushToGitHub` (service worker
lines 131-141): extension lookup, `` `${slug}.${extension}` ``, then
`generateFilePath`. -/
def derivePath (fileStructure : String) (data : PushData) : String :=
  let extension := Background.getFileExtension data.language
  let filename := data.problemSlug ++ "." ++ extension
  generateFilePath fileStructure
    ⟨data.category, filename, data.problemSlug, data.language⟩

/-! ## src/js/storage.js -/

/-- One submission record, as stored by `StorageManager.addSubmissionRecord`. -/
structure SubmissionRecord where
  problemSlug : String
  problemTitle : String
  language : String
  category : String
  timestamp : Int
  githubUrl : String
  filePath : String
deriving DecidableEq

/-- The duplicate predicate of `addSubmissionRecord` (storage.js lines 27-31):
same slug, same language, and timestamps strictly less than 60000 ms apart. -/
def isDuplicateOf (sub record : SubmissionRecord) : Bool :=
  sub.problemSlug == record.problemSlug && sub.language == record.language
    && (sub.timestamp - record.timestamp).natAbs < 60000

/-- `StorageManager.addSubmissionRecord` (storage.js lines 21-40): push the
record unless an existing record matches the duplicate predicate. -/
def addSubmissionRecord (submissions : List SubmissionRecord)
    (record : SubmissionRecord) : List SubmissionRecord :=
  if submissions.any fun sub => isDuplicateOf sub record then submissions
  else submissions ++ [record]

/-! ## Background `handlePushToGitHub` -/

/-- Stored configuration (chrome.storage keys; `none` = unset). -/
structure Config where
  github_token : Option String
  github_repo : Option String
  branch : Option String
  file_structure : Option String
deriving DecidableEq

/-- The process-wide state `handlePushToGitHub` touches: the remote store,
the persisted submission history, and a counter of attempted remote writes
(used to state that failed runs issue no write). -/
structure World where
  store : RemoteStore
  submissions : List SubmissionRecord
  writeAttempts : Nat
deriving DecidableEq

/-- Modelled from the spec: the message text of a failed remote write
(`GitHub API error: ${status} - ...` in the client); the status texts stand
in for the remote's JSON error bodies. -/
def storeErrorMessage : StoreError → String
  | StoreError.conflict => "GitHub API error: 409 - Conflict"
  | StoreError.invalidSha => "GitHub API error: 422 - Unprocessable Entity"

/-- `handlePushToGitHub` (service worker lines 108-192).  `tokenValid` is the
remote's answer to `validateToken` (github-api.js lines 14-27: whether
`GET /user` accepts the credential). -/
def handlePushToGitHub (cfg : Config) (tokenValid : Bool) (w : World)
    (data : PushData) : Except String PushResult × World :=
  if jsFalsy cfg.github_token || jsFalsy cfg.github_repo then
    (Except.error
      "GitHub not configured. Please set up your token and repository in options.",
      w)
  else if !tokenValid then
    (Except.error "Invalid GitHub token. Please update your token in options.",
      w)
  else
    let parts := splitSlash (cfg.github_repo.getD "")
    let owner := (parts.get? 0).getD ""
    let repo := (parts.get? 1).getD ""
    if owner = "" || repo = "" then
      (Except.error "Invalid repository format. Use format: owner/repo", w)
    else
      let fileStructure := jsOr cfg.file_structure "hackerrank/{category}/{filename}"
      let filePath := derivePath fileStructure data
      let formattedCode := formatFileContent data.code
        ⟨data.problemTitle, data.language, data.timestamp, data.url⟩
      let commitMessage :=
        "Add solution for " ++ data.problemTitle ++ " (" ++ data.language ++ ")"
      let branch := jsOr cfg.branch "main"
      let w1 : World := { w with writeAttempts := w.writeAttempts + 1 }
      match createOrUpdateFile w.store owner repo filePath formattedCode
          commitMessage branch with
      | Except.error e => (Except.error (storeErrorMessage e), w1)
      | Except.ok (store2, res) =>
        let record : SubmissionRecord :=
          ⟨data.problemSlug, data.problemTitle, data.language, data.category,
            data.timestamp, res.html_url, filePath⟩
        (Except.ok res,
          { store := store2,
            submissions := addSubmissionRecord w.submissions record,
            writeAttempts := w1.writeAttempts })

/-! ## src/js/content.js (DOM-observing content script) -/

namespace ContentScript

/-- The `languageMap` of content.js `normalizeLanguage` (lines 343-358; note
it has no `python2` entry). -/
def languageMap : List (String × String) :=
  [("python3", "python3"), ("python", "python3"), ("py", "python3"),
   ("java", "java"),
   ("javascript", "javascript"), ("js", "javascript"),
   ("cpp", "cpp"), ("c++", "cpp"), ("c", "c"),
   ("csharp", "csharp"), ("cs", "csharp"),
   ("go", "go"), ("golang", "go"),
   ("ruby", "ruby"), ("rb", "ruby"),
   ("swift", "swift"), ("kotlin", "kotlin"), ("scala", "scala"),
   ("rust", "rust"),
   ("php", "php"), ("typescript", "typescript"), ("ts", "typescript"),
   ("r", "r"), ("sql", "sql"), ("bash", "bash"), ("shell", "bash")]

/-- `normalizeLanguage(lang)` of content.js: `lang.toLowerCase().trim()`,
then table lookup with passthrough default. -/
def normalizeLanguage (lang : String) : String :=
  let normalized := jsTrim (jsToLower lang)
  (languageMap.lookup normalized).getD normalized

/-- The acceptance keyword list of `isSubmissionAccepted` (content.js
lines 459-462). -/
def acceptedKeywords : List String :=
  ["accepted", "success", "all test cases passed", "congratulations",
   "passed", "successfully"]

/-- The rejection keyword list of `isSubmissionAccepted` (content.js
lines 463-465). -/
def rejectedKeywords : List String :=
  ["wrong answer", "runtime error", "timeout", "failed", "error"]

/-- `isSubmissionAccepted` (content.js lines 455-472) applied to the result
panel's text content (`element.textContent`; a missing element yields
`false` before any text is read and is not modelled).  Rejection keywords
are checked first. -/
def isSubmissionAccepted (text : String) : Bool :=
  let t := jsToLower text
  if rejectedKeywords.any fun kw => strIncludes t kw then false
  else acceptedKeywords.any fun kw => strIncludes t kw

/-- The test `/^\d{10,}/.test(code)`: at least ten leading decimal digits. -/
def tenDigitStart (l : List Char) : Bool :=
  (l.take 10).length = 10 && (l.take 10).all Char.isDigit

/-- The shebang marker `'#!/'` searched by `cleanCode`. -/
def shebangPat : List Char := ['#', '!', '/']

/-- The branch of `cleanCode` (content.js lines 152-164) before the final
`trim`: when the text starts with ten or more digits, cut from the first
`#!/` if it occurs before index 50, otherwise strip the leading digit run
(`replace(/^\d{10,}/, '')`, whose greedy match is the maximal run here). -/
def cleanCodeBody (cs : List Char) : List Char :=
  if tenDigitStart cs then
    match indexOfSub shebangPat cs with
    | some i => if i < 50 then cs.drop i else cs.dropWhile Char.isDigit
    | none => cs.dropWhile Char.isDigit
  else cs

/-- `cleanCode` (content.js lines 149-174): the digit-run cleanup followed by
`trim`. -/
def cleanCode (code : String) : String :=
  jsTrim ⟨cleanCodeBody code.data⟩

end ContentScript

/-! ## Helper lemmas -/

theorem lookup_mem {α β : Type} [BEq α] [LawfulBEq α] {a : α} {b : β} :
    ∀ {l : List (α × β)}, l.lookup a = some b → (a, b) ∈ l := by
  intro l
  induction l with
  | nil => intro h; simp [List.lookup] at h
  | cons p rest ih =>
    intro h
    obtain ⟨k, v⟩ := p
    rw [List.lookup] at h
    cases hk : a == k with
    | true =>
      rw [hk] at h
      cases h
      have : a = k := eq_of_beq hk
      subst this
      exact List.mem_cons_self _ _
    | false =>
      rw [hk] at h
      exact List.mem_cons_of_mem _ (ih h)

theorem lowerChar_idem (c : Char) : lowerChar (lowerChar c) = lowerChar c := by
  unfold lowerChar
  cases h : upperLower.lookup c with
  | none => simp [h]
  | some d =>
    have hm : (c, d) ∈ upperLower := lookup_mem h
    have hall : ∀ p ∈ upperLower, upperLower.lookup p.2 = none := by decide
    have hd : upperLower.lookup d = none := hall (c, d) hm
    simp [h, hd]

theorem mem_map_lowerChar_fixed {c : Char} {l : List Char}
    (h : c ∈ l.map lowerChar) : lowerChar c = c := by
  obtain ⟨a, _, rfl⟩ := List.mem_map.mp h
  exact lowerChar_idem a

theorem map_eq_self_of_fixed {f : Char → Char} :
    ∀ {l : List Char}, (∀ c ∈ l, f c = c) → l.map f = l := by
  intro l
  induction l with
  | nil => intro _; rfl
  | cons c rest ih =>
    intro h
    simp only [List.map_cons]
    rw [h c (List.mem_cons_self _ _), ih fun d hd => h d (List.mem_cons_of_mem _ hd)]

theorem dropWhile_idem (p : Char → Bool) :
    ∀ l : List Char, (l.dropWhile p).dropWhile p = l.dropWhile p := by
  intro l
  induction l with
  | nil => rfl
  | cons c rest ih =>
    by_cases h : p c
    · rw [List.dropWhile_cons_of_pos h, ih]
    · rw [List.dropWhile_cons_of_neg h, List.dropWhile_cons_of_neg h]

theorem dropWhile_subset (p : Char → Bool) :
    ∀ (l : List Char), ∀ c ∈ l.dropWhile p, c ∈ l := by
  intro l
  induction l with
  | nil => intro c h; exact absurd h (by simp)
  | cons a rest ih =>
    intro c h
    by_cases ha : p a
    · rw [List.dropWhile_cons_of_pos ha] at h
      exact List.mem_cons_of_mem _ (ih c h)
    · rw [List.dropWhile_cons_of_neg ha] at h
      exact h

theorem trimList_subset (l : List Char) : ∀ c ∈ trimList l, c ∈ l := by
  intro c h
  unfold trimList dropEndWS at h
  rw [List.mem_reverse] at h
  have h2 := dropWhile_subset isJsWS (l.dropWhile isJsWS).reverse c h
  rw [List.mem_reverse] at h2
  exact dropWhile_subset isJsWS l c h2

theorem dropWhile_head?_not (p : Char → Bool) :
    ∀ (l : List Char) (c : Char), (l.dropWhile p).head? = some c → p c = false := by
  intro l
  induction l with
  | nil => intro c h; simp at h
  | cons a rest ih =>
    intro c h
    by_cases ha : p a
    · rw [List.dropWhile_cons_of_pos ha] at h
      exact ih c h
    · rw [List.dropWhile_cons_of_neg ha] at h
      cases h
      exact Bool.of_not_eq_true ha

theorem dropWhile_eq_self_of_head? (p : Char → Bool) (l : List Char)
    (h : ∀ c, l.head? = some c → p c = false) : l.dropWhile p = l := by
  cases l with
  | nil => rfl
  | cons a rest =>
    exact List.dropWhile_cons_of_neg (by simp [h a rfl])

theorem dropWhile_getLast? (p : Char → Bool) :
    ∀ (l : List Char), l.dropWhile p ≠ [] → (l.dropWhile p).getLast? = l.getLast? := by
  intro l
  induction l with
  | nil => intro h; exact absurd rfl h
  | cons a rest ih =>
    intro h
    by_cases ha : p a
    · rw [List.dropWhile_cons_of_pos ha] at h ⊢
      cases hr : rest with
      | nil => subst hr; exact absurd rfl h
      | cons b t =>
        subst hr
        rw [List.getLast?_cons_cons]
        exact ih h
    · rw [List.dropWhile_cons_of_neg ha]

theorem dropEndWS_head? (x : List Char) (h : dropEndWS x ≠ []) :
    (dropEndWS x).head? = x.head? := by
  unfold dropEndWS at h ⊢
  rw [List.head?_reverse]
  have hne : x.reverse.dropWhile isJsWS ≠ [] := by
    intro hz
    rw [hz] at h
    exact h rfl
  rw [dropWhile_getLast? isJsWS x.reverse hne, List.getLast?_reverse]

theorem dropWhile_dropEndWS (x : List Char) (hx : x.dropWhile isJsWS = x) :
    (dropEndWS x).dropWhile isJsWS = dropEndWS x := by
  cases hy : dropEndWS x with
  | nil => rfl
  | cons c t =>
    have hne : dropEndWS x ≠ [] := by rw [hy]; exact List.cons_ne_nil _ _
    have hh : (dropEndWS x).head? = x.head? := dropEndWS_head? x hne
    rw [hy] at hh
    have hc : isJsWS c = false := by
      apply dropWhile_head?_not isJsWS x
      rw [hx]
      exact hh.symm
    rw [← hy]
    apply dropWhile_eq_self_of_head? isJsWS
    intro d hd
    rw [hy] at hd
    cases hd
    exact hc

theorem dropEndWS_idem (y : List Char) : dropEndWS (dropEndWS y) = dropEndWS y := by
  unfold dropEndWS
  rw [List.reverse_reverse, dropWhile_idem]

theorem trimList_idem (l : List Char) : trimList (trimList l) = trimList l := by
  unfold trimList
  rw [dropWhile_dropEndWS (l.dropWhile isJsWS) (dropWhile_idem isJsWS l),
    dropEndWS_idem]

theorem normPrep_idem (s : String) :
    jsTrim (jsToLower (jsTrim (jsToLower s))) = jsTrim (jsToLower s) := by
  unfold jsTrim jsToLower
  congr 1
  have hfix : ∀ c ∈ trimList (s.data.map lowerChar), lowerChar c = c := by
    intro c hc
    exact mem_map_lowerChar_fixed (trimList_subset _ c hc)
  rw [map_eq_self_of_fixed hfix, trimList_idem]

theorem replaceSubAux_no_match (pat repl : List Char) :
    ∀ (n : Nat) (s : List Char), noMatch pat s = true →
      replaceSubAux pat repl n s = s := by
  intro n
  induction n with
  | zero => intro s _; rfl
  | succ m ih =>
    intro s h
    cases s with
    | nil => rfl
    | cons c rest =>
      rw [noMatch] at h
      have h1 : pat.isPrefixOf (c :: rest) = false := by
        cases hp : pat.isPrefixOf (c :: rest)
        · rfl
        · rw [hp] at h; simp at h
      have h2 : noMatch pat rest = true := by
        rw [h1] at h; simpa using h
      simp only [replaceSubAux, h1, Bool.false_eq_true, if_false, ih rest h2]

theorem replaceAllStr_no_match (pat repl s : String)
    (h : noMatch pat.data s.data = true) : replaceAllStr pat repl s = s := by
  unfold replaceAllStr replaceSub
  cases hp : pat.data.isEmpty with
  | true => simp only [hp, if_true]
  | false =>
    simp only [hp, Bool.false_eq_true, if_false]
    rw [replaceSubAux_no_match pat.data repl.data s.data.length s.data h]

theorem contentScript_table_canonical :
    ∀ p ∈ ContentScript.languageMap,
      ((ContentScript.languageMap.lookup (jsTrim (jsToLower p.2))).getD
        (jsTrim (jsToLower p.2))) = p.2 := by decide

theorem contentScript_normalize_idem (s : String) :
    ContentScript.normalizeLanguage (ContentScript.normalizeLanguage s) =
      ContentScript.normalizeLanguage s := by
  unfold ContentScript.normalizeLanguage
  cases h : ContentScript.languageMap.lookup (jsTrim (jsToLower s)) with
  | none =>
    simp only [h, Option.getD_none]
    rw [normPrep_idem, h]
    rfl
  | some v =>
    simp only [h, Option.getD_some]
    exact contentScript_table_canonical _ (lookup_mem h)

/-! ## Claim theorems -/

/-- Claim C1: against the modelled remote store, a create-or-update of a path
that already has a revision fails as a conflict when no revision is supplied;
supplying the correct current revision succeeds (compare-and-swap update);
and every wrong claimed revision fails as a conflict rather than silently
overwriting. -/
theorem claim1_createOrUpdate_cas (store : RemoteStore) (key : RemoteKey)
    (f : RemoteFile) (c : String) (h : findFile store key = some f) :
    putContents store key c none = Except.error StoreError.conflict
    ∧ putContents store key c (some f.sha) =
        Except.ok (setFile store key ⟨f.sha + 1, c⟩, (⟨f.sha + 1, c⟩ : RemoteFile))
    ∧ ∀ s : Nat, s ≠ f.sha →
        putContents store key c (some s) = Except.error StoreError.conflict := by
  refine ⟨?_, ?_, ?_⟩
  · unfold putContents
    rw [h]
  · unfold putContents
    rw [h]
    simp
  · intro s hs
    unfold putContents
    rw [h]
    simp [hs]

/-- Witness for claim C1 at a one-file store holding revision 5. -/
theorem claim1_createOrUpdate_cas_witness :
    putContents [(⟨"o", "r", "main", "p"⟩, ⟨5, "old"⟩)] ⟨"o", "r", "main", "p"⟩
        "new" none = Except.error StoreError.conflict
    ∧ putContents [(⟨"o", "r", "main", "p"⟩, ⟨5, "old"⟩)] ⟨"o", "r", "main", "p"⟩
        "new" (some 5) =
        Except.ok (setFile [(⟨"o", "r", "main", "p"⟩, ⟨5, "old"⟩)]
          ⟨"o", "r", "main", "p"⟩ ⟨5 + 1, "new"⟩, (⟨5 + 1, "new"⟩ : RemoteFile))
    ∧ putContents [(⟨"o", "r", "main", "p"⟩, ⟨5, "old"⟩)] ⟨"o", "r", "main", "p"⟩
        "new" (some 7) = Except.error StoreError.conflict := by
  have h := claim1_createOrUpdate_cas [(⟨"o", "r", "main", "p"⟩, ⟨5, "old"⟩)]
    ⟨"o", "r", "main", "p"⟩ ⟨5, "old"⟩ "new" (by decide)
  exact ⟨h.1, h.2.1, h.2.2 7 (by decide)⟩

/-- Claim C2 (code bug): the path pipeline — extension lookup, filename
construction, template substitution, sanitization — applied to slug
"simple-array-sum", language "python3", category "algorithms" and the default
template produces "hackerrank/algorithms/simple-array-sum-py": the filename
sanitizer collapses the extension dot to a hyphen, not the
"hackerrank/algorithms/simple-array-sum.py" the spec and the repository's
README document. -/
theorem claim2_path_pipeline_result :
    derivePath "hackerrank/{category}/{filename}"
        ⟨"print(1)", "python3", "Simple Array Sum", "simple-array-sum",
          "algorithms", 0,
          "https://www.hackerrank.com/challenges/simple-array-sum/problem"⟩
      = "hackerrank/algorithms/simple-array-sum-py"
    ∧ ("hackerrank/algorithms/simple-array-sum-py" : String)
      ≠ "hackerrank/algorithms/simple-array-sum.py" := by decide

/-- Claim C3 (counterexample): two records with the same slug and language
whose timestamps are exactly 60 seconds apart — "at most 60 seconds" in the
claim's words — are both stored: the strict `< 60000` window does not make
the second append a no-op. -/
theorem claim3_window_counterexample :
    (addSubmissionRecord (addSubmissionRecord []
        ⟨"simple-array-sum", "Simple Array Sum", "python3", "algorithms", 0,
          "u", "p"⟩)
        ⟨"simple-array-sum", "Simple Array Sum", "python3", "algorithms",
          60000, "u", "p"⟩).length = 2
    ∧ ((60000 : Int) - 0).natAbs ≤ 60000 := by decide

/-- Claim C3 (amended): the dedup window is strict — with the same
`(problemSlug, language)`, appending two records whose timestamps are
strictly less than 60000 ms apart leaves exactly one stored record, and
60000 ms or more apart leaves two. -/
theorem claim3_dedup_window (r1 r2 : SubmissionRecord)
    (hs : r1.problemSlug = r2.problemSlug) (hl : r1.language = r2.language) :
    ((r1.timestamp - r2.timestamp).natAbs < 60000 →
        addSubmissionRecord (addSubmissionRecord [] r1) r2 = [r1])
    ∧ (60000 ≤ (r1.timestamp - r2.timestamp).natAbs →
        addSubmissionRecord (addSubmissionRecord [] r1) r2 = [r1, r2]) := by
  have h0 : addSubmissionRecord [] r1 = [r1] := rfl
  rw [h0]
  constructor
  · intro hlt
    simp [addSubmissionRecord, isDuplicateOf, hs, hl, hlt]
  · intro hge
    have hnot : ¬ (r1.timestamp - r2.timestamp).natAbs < 60000 :=
      not_lt.mpr hge
    simp [addSubmissionRecord, isDuplicateOf, hs, hl, hnot]

/-- Witness for claim C3 at records 59999 ms and 61000 ms apart. -/
theorem claim3_dedup_window_witness :
    addSubmissionRecord (addSubmissionRecord []
        ⟨"a", "T", "python3", "algorithms", 0, "u", "p"⟩)
        ⟨"a", "T", "python3", "algorithms", 59999, "u2", "p"⟩
      = [⟨"a", "T", "python3", "algorithms", 0, "u", "p"⟩]
    ∧ addSubmissionRecord (addSubmissionRecord []
        ⟨"a", "T", "python3", "algorithms", 0, "u", "p"⟩)
        ⟨"a", "T", "python3", "algorithms", 61000, "u2", "p"⟩
      = [⟨"a", "T", "python3", "algorithms", 0, "u", "p"⟩,
         ⟨"a", "T", "python3", "algorithms", 61000, "u2", "p"⟩] :=
  ⟨(claim3_dedup_window ⟨"a", "T", "python3", "algorithms", 0, "u", "p"⟩
      ⟨"a", "T", "python3", "algorithms", 59999, "u2", "p"⟩ rfl rfl).1
      (by decide),
   (claim3_dedup_window ⟨"a", "T", "python3", "algorithms", 0, "u", "p"⟩
      ⟨"a", "T", "python3", "algorithms", 61000, "u2", "p"⟩ rfl rfl).2
      (by decide)⟩

/-- Claim C4: a verdict text containing any rejection keyword is classified
as not accepted, even when an acceptance keyword is also present — rejection
keywords take precedence. -/
theorem claim4_rejection_precedence (text : String)
    (h : ContentScript.rejectedKeywords.any
        (fun kw => strIncludes (jsToLower text) kw) = true) :
    ContentScript.isSubmissionAccepted text = false := by
  unfold ContentScript.isSubmissionAccepted
  simp [h]

/-- Witness for claim C4 on text holding both "passed" and "wrong answer". -/
theorem claim4_rejection_precedence_witness :
    ContentScript.isSubmissionAccepted
      "Test case 1 passed, test case 2: Wrong Answer" = false :=
  claim4_rejection_precedence _ (by decide)

/-- Claim C5 (counterexample): two submissions agreeing on slug and language
but differing in category map to different paths under the default template,
so the path is not a function of (slug, language, template, branch) alone. -/
theorem claim5_category_counterexample :
    derivePath "hackerrank/{category}/{filename}"
        ⟨"c", "python3", "T", "simple-array-sum", "algorithms", 0, "u"⟩
      ≠ derivePath "hackerrank/{category}/{filename}"
        ⟨"c", "python3", "T", "simple-array-sum", "misc", 0, "u"⟩ := by decide

/-- Claim C5 (amended): the derived path is a function of the submission's
slug, language and category (under a fixed template): any two submissions
agreeing on those three fields map to the same path, whatever their code,
title, timestamp or URL. -/
theorem claim5_path_determined (template : String) (d1 d2 : PushData)
    (hs : d1.problemSlug = d2.problemSlug) (hl : d1.language = d2.language)
    (hc : d1.category = d2.category) :
    derivePath template d1 = derivePath template d2 := by
  unfold derivePath
  rw [hs, hl, hc]

/-- Witness for claim C5 at two submissions differing in code, title,
timestamp and URL. -/
theorem claim5_path_determined_witness :
    derivePath "hackerrank/{category}/{filename}"
        ⟨"code1", "python3", "Title A", "slug-x", "algorithms", 0, "u1"⟩
      = derivePath "hackerrank/{category}/{filename}"
        ⟨"code2", "python3", "Title B", "slug-x", "algorithms", 99, "u2"⟩ :=
  claim5_path_determined "hackerrank/{category}/{filename}"
    ⟨"code1", "python3", "Title A", "slug-x", "algorithms", 0, "u1"⟩
    ⟨"code2", "python3", "Title B", "slug-x", "algorithms", 99, "u2"⟩
    rfl rfl rfl

/-- Claim C6: generateFilePath on "solutions/{language}/{slug}" with slug
"Two Sum!!" and language "python3" yields "solutions/python3/two-sum" (the
slug is lower-cased, runs of non-alphanumerics collapse to one hyphen, edge
hyphens are trimmed), whatever the unused category and filename fields hold. -/
theorem claim6_sanitization (category filename : String) :
    generateFilePath "solutions/{language}/{slug}"
      ⟨category, filename, "Two Sum!!", "python3"⟩
      = "solutions/python3/two-sum" := by
  show (⟨collapseSlashes false
    ((replaceAllStr "{language}" "python3"
      (replaceAllStr "{slug}" (sanitizePart "Two Sum!!")
        (replaceAllStr "{filename}" (sanitizePart filename)
          (replaceAllStr "{category}" category
            "solutions/{language}/{slug}")))).data)⟩ : String)
      = "solutions/python3/two-sum"
  rw [replaceAllStr_no_match "{category}" category _ (by decide),
    replaceAllStr_no_match "{filename}" (sanitizePart filename) _ (by decide)]
  decide

/-- Claim C7: cleanCode maps "12345678910#!/bin/python3\nprint(1)" to
"#!/bin/python3\nprint(1)", and any input that does not begin with ten or
more digits is only trimmed — digits occurring mid-code are untouched. -/
theorem claim7_cleanCode (code : String)
    (h : ContentScript.tenDigitStart code.data = false) :
    ContentScript.cleanCode "12345678910#!/bin/python3\nprint(1)"
        = "#!/bin/python3\nprint(1)"
    ∧ ContentScript.cleanCode code = jsTrim code := by
  constructor
  · decide
  · unfold ContentScript.cleanCode ContentScript.cleanCodeBody
    simp [h]

/-- Witness for claim C7 on code whose ≥10-digit run sits mid-text. -/
theorem claim7_cleanCode_witness :
    ContentScript.cleanCode "x = 12345678910\nprint(x)"
      = "x = 12345678910\nprint(x)" :=
  (claim7_cleanCode "x = 12345678910\nprint(x)" (by decide)).2.trans (by decide)

/-- Claim C8 (counterexample): "python2" is not folded into the python3
family by either normalizeLanguage variant — content.js passes it through
unchanged and the service worker maps it to "python", while "py", "python"
and "python3" map to "python3". -/
theorem claim8_python2_counterexample :
    ContentScript.normalizeLanguage "python2" = "python2"
    ∧ Background.normalizeLanguage "python2" = "python"
    ∧ ContentScript.normalizeLanguage "python3" = "python3"
    ∧ Background.normalizeLanguage "python3" = "python3"
    ∧ ("python2" : String) ≠ "python3"
    ∧ ("python" : String) ≠ "python3" := by decide

/-- Claim C8 (amended): both normalizeLanguage variants map "py", "python"
and "python3" to the single canonical id "python3"; "python2" stays outside
that family ("python2" in content.js, "python" in the service worker); and
any input whose lower-cased, trimmed form is not a key of the alias table is
returned unchanged after lower-casing and trimming. -/
theorem claim8_alias_mapping :
    (ContentScript.normalizeLanguage "py" = "python3"
      ∧ ContentScript.normalizeLanguage "python" = "python3"
      ∧ ContentScript.normalizeLanguage "python3" = "python3"
      ∧ ContentScript.normalizeLanguage "python2" = "python2")
    ∧ (Background.normalizeLanguage "py" = "python3"
      ∧ Background.normalizeLanguage "python" = "python3"
      ∧ Background.normalizeLanguage "python3" = "python3"
      ∧ Background.normalizeLanguage "python2" = "python")
    ∧ (∀ s : String,
        ContentScript.languageMap.lookup (jsTrim (jsToLower s)) = none →
          ContentScript.normalizeLanguage s = jsTrim (jsToLower s))
    ∧ (∀ s : String,
        Background.languageMap.lookup (jsTrim (jsToLower s)) = none →
          Background.normalizeLanguage s = jsTrim (jsToLower s)) := by
  refine ⟨by decide, by decide, ?_, ?_⟩
  · intro s h
    unfold ContentScript.normalizeLanguage
    simp only [h, Option.getD_none]
  · intro s h
    unfold Background.normalizeLanguage
    simp only [h, Option.getD_none]

/-- Witness for claim C8: an input outside both alias tables is returned
lower-cased and trimmed. -/
theorem claim8_alias_mapping_witness :
    ContentScript.normalizeLanguage " Haskell " = "haskell"
    ∧ Background.normalizeLanguage " Haskell " = "haskell" :=
  ⟨(claim8_alias_mapping.2.2.1 " Haskell " (by decide)).trans (by decide),
   (claim8_alias_mapping.2.2.2 " Haskell " (by decide)).trans (by decide)⟩

/-- Claim C9: handlePushToGitHub rejects with the configuration-missing
error whenever the stored token or repository is absent or empty, and with
the invalid-token error when both are present but the remote rejects the
credential; in both cases the world — remote store, history, write-attempt
count — is returned unchanged, so no remote write is attempted. -/
theorem claim9_config_and_token_guards (cfg : Config) (tokenValid : Bool)
    (w : World) (data : PushData) :
    ((jsFalsy cfg.github_token || jsFalsy cfg.github_repo) = true →
      handlePushToGitHub cfg tokenValid w data =
        (Except.error
          "GitHub not configured. Please set up your token and repository in options.",
          w))
    ∧ ((jsFalsy cfg.github_token || jsFalsy cfg.github_repo) = false →
        tokenValid = false →
      handlePushToGitHub cfg tokenValid w data =
        (Except.error
          "Invalid GitHub token. Please update your token in options.",
          w)) := by
  constructor
  · intro h
    unfold handlePushToGitHub
    rw [h]
    rfl
  · intro h ht
    subst ht
    unfold handlePushToGitHub
    rw [h]
    rfl

/-- Witness for claim C9: a configuration with no token, and one with a
token the remote rejects. -/
theorem claim9_config_and_token_guards_witness :
    handlePushToGitHub ⟨none, some "o/r", none, none⟩ true ⟨[], [], 0⟩
        ⟨"c", "python3", "T", "s", "algorithms", 0, "u"⟩
      = (Except.error
          "GitHub not configured. Please set up your token and repository in options.",
          ⟨[], [], 0⟩)
    ∧ handlePushToGitHub ⟨some "tok", some "o/r", none, none⟩ false ⟨[], [], 0⟩
        ⟨"c", "python3", "T", "s", "algorithms", 0, "u"⟩
      = (Except.error
          "Invalid GitHub token. Please update your token in options.",
          ⟨[], [], 0⟩) :=
  ⟨(claim9_config_and_token_guards ⟨none, some "o/r", none, none⟩ true
      ⟨[], [], 0⟩ ⟨"c", "python3", "T", "s", "algorithms", 0, "u"⟩).1
      (by decide),
   (claim9_config_and_token_guards ⟨some "tok", some "o/r", none, none⟩ false
      ⟨[], [], 0⟩ ⟨"c", "python3", "T", "s", "algorithms", 0, "u"⟩).2
      (by decide) rfl⟩

/-- Claim C10 (counterexample): the service-worker normalizeLanguage is not
idempotent — it maps "python2" to "python", and "python" to "python3". -/
theorem claim10_background_not_idempotent :
    Background.normalizeLanguage (Background.normalizeLanguage "python2")
      ≠ Background.normalizeLanguage "python2" := by decide

/-- Claim C10 (amended): the content-script normalizeLanguage is idempotent
— applying it twice equals applying it once, so every identifier it can
output is a fixed point; the service-worker copy does not share this
property. -/
theorem claim10_contentScript_idempotent (s : String) :
    ContentScript.normalizeLanguage (ContentScript.normalizeLanguage s) =
      ContentScript.normalizeLanguage s :=
  contentScript_normalize_idem s

/-- Witness for claim C6 at concrete category and filename fields. -/
theorem claim6_sanitization_witness :
    generateFilePath "solutions/{language}/{slug}"
      ⟨"algorithms", "two-sum.py", "Two Sum!!", "python3"⟩
      = "solutions/python3/two-sum" :=
  claim6_sanitization "algorithms" "two-sum.py"

/-- Witness for claim C10 at a concrete alias. -/
theorem claim10_contentScript_idempotent_witness :
    ContentScript.normalizeLanguage (ContentScript.normalizeLanguage " PY ") =
      ContentScript.normalizeLanguage " PY " :=
  claim10_contentScript_idempotent " PY "
